import Mathlib

/-!
Shallow embedding of the whitelist-management service
(`src/services/firebaseService.ts` of akunsamtiga/web-stc) and proofs about it.

The Firestore collection `whitelist_users` is modelled as an association list
from document id to record, kept in store-iteration order.  Every store
round-trip issued by an operation is logged as a `StoreOp` event, and
backend failures of individual store calls are injected through explicit
oracles (`Option String` = "this call throws with that message").  A thrown
JavaScript exception that escapes a service function is modelled as
`Except.error`.
-/

set_option autoImplicit false

namespace WebStc

instance {ε α : Type} [DecidableEq ε] [DecidableEq α] : DecidableEq (Except ε α) := fun x y =>
  match x, y with
  | Except.ok a, Except.ok b =>
    if h : a = b then isTrue (by rw [h]) else isFalse (by intro he; cases he; exact h rfl)
  | Except.error a, Except.error b =>
    if h : a = b then isTrue (by rw [h]) else isFalse (by intro he; cases he; exact h rfl)
  | Except.ok _, Except.error _ => isFalse (by intro h; cases h)
  | Except.error _, Except.ok _ => isFalse (by intro h; cases h)

/-- One record of the `whitelist_users` collection (the fields written by the
service; the TypeScript `id` field is the document id, kept separately as the
key of the store association list). -/
structure WhitelistUser where
  name : String
  email : String
  userId : String
  deviceId : String
  isActive : Bool
  createdAt : Nat
  addedAt : Nat
  addedBy : String
  lastLogin : Nat
deriving Repr, DecidableEq

/-- The `whitelist_users` collection: document id paired with record data,
in store-iteration order. -/
abbrev Store := List (String × WhitelistUser)

/-- Store round-trips issued by a service call (the observable I/O trace). -/
inductive StoreOp where
  /-- `getDoc` on one document id. -/
  | getDocById (docId : String)
  /-- `getDocs` of a `where('userId','in', ids)` query. -/
  | queryUserIdIn (ids : List String)
  /-- `getDocs` of the whole collection. -/
  | getAllDocs
  /-- single `setDoc`. -/
  | setOne (docId : String)
  /-- `writeBatch` commit consisting of `set` operations. -/
  | commitSet (docIds : List String)
  /-- `writeBatch` commit consisting of `delete` operations. -/
  | commitDelete (docIds : List String)
deriving Repr, DecidableEq

/-- Does a document with the given id exist (`getDoc(...).exists()`)? -/
def getDocExists (store : Store) (docId : String) : Bool :=
  store.any (fun p => p.1 = docId)

/-- Firestore `setDoc`: overwrite the document at `docId` in place if present,
otherwise create it (appended at the end of iteration order). -/
def setDoc : Store → String → WhitelistUser → Store
  | [], docId, r => [(docId, r)]
  | (d, r') :: rest, docId, r =>
    if d = docId then (docId, r) :: rest else (d, r') :: setDoc rest docId r

/-- Firestore `deleteDoc` by document id. -/
def deleteDoc (store : Store) (docId : String) : Store :=
  store.filter (fun p => p.1 ≠ docId)

/-- The multiset of `userId` field values present in the store. -/
def storeUserIds (store : Store) : List String :=
  store.map (fun p => p.2.userId)

/-- JavaScript `String.prototype.trim`: strip whitespace from both ends
(structural list recursion, so that concrete values compute). -/
def jsTrim (s : String) : String :=
  ⟨(s.data.dropWhile Char.isWhitespace).reverse.dropWhile Char.isWhitespace |>.reverse⟩

/-- JavaScript emptiness (`!s` for a string): is the string empty? -/
def jsIsEmpty (s : String) : Bool := s.data.isEmpty

/-- JavaScript `s.includes(c)` for a single character. -/
def jsIncludesChar (s : String) (c : Char) : Bool := s.data.contains c

/-- JavaScript `String.prototype.toLowerCase` (ASCII case folding). -/
def jsToLower (s : String) : String := ⟨s.data.map Char.toLower⟩

/-- Characters kept untouched by `sanitizeDocId` (the regex class `[a-zA-Z0-9_-]`). -/
def isDocIdChar (c : Char) : Bool :=
  ('a' ≤ c && c ≤ 'z') || ('A' ≤ c && c ≤ 'Z') || ('0' ≤ c && c ≤ '9') || c = '_' || c = '-'

/-- `sanitizeDocId`: `userId.replace(/[^a-zA-Z0-9_-]/g, '_')`. -/
def sanitizeDocId (userId : String) : String :=
  ⟨userId.data.map (fun c => if isDocIdChar c then c else '_')⟩

/-- Split a list into consecutive chunks of size `n` (used with the source's
fixed chunk sizes 30, 50 and 500).  Structural recursion so that it computes
by `rfl`/`decide`; `left` is the reversed chunk under construction and `k` the
remaining capacity of that chunk. -/
def chunksGo {α : Type} (n : Nat) : List α → List α → Nat → List (List α)
  | [], left, _ => [left.reverse]
  | x :: xs, left, 0 => left.reverse :: chunksGo n xs [x] (n - 1)
  | x :: xs, left, k + 1 => chunksGo n xs (x :: left) k

/-- Chunking of `for (let i = 0; i < l.length; i += n) { l.slice(i, i + n) }`. -/
def chunksOf {α : Type} (n : Nat) : List α → List (List α)
  | [] => []
  | x :: xs => chunksGo n xs [x] (n - 1)

/-- Left zero-padding to two digits. -/
def pad2 (n : Nat) : String :=
  if n < 10 then "0" ++ toString n else toString n

/-- Left zero-padding to three digits. -/
def pad3 (n : Nat) : String :=
  if n < 100 then "0" ++ pad2 n else toString n

/-- Left zero-padding to four digits. -/
def pad4 (n : Nat) : String :=
  if n < 1000 then "0" ++ pad3 n else toString n

/-- Gregorian calendar date from a count of days since 1970-01-01
(the standard civil-from-days conversion, for non-negative day counts). -/
def civilFromDays (z : Nat) : Nat × Nat × Nat :=
  let zz := z + 719468
  let era := zz / 146097
  let doe := zz % 146097
  let yoe := (doe - doe / 1460 + doe / 36524 - doe / 146096) / 365
  let y := yoe + era * 400
  let doy := doe - (365 * yoe + yoe / 4 - yoe / 100)
  let mp := (5 * doy + 2) / 153
  let d := doy - (153 * mp + 2) / 5 + 1
  let m := if mp < 10 then mp + 3 else mp - 9
  (if m ≤ 2 then y + 1 else y, m, d)

/-- `new Date(ms).toISOString()` for a non-negative millisecond epoch timestamp
(dates up to year 9999, the four-digit-year range of that method). -/
def toISOString (ms : Nat) : String :=
  let s := ms / 1000
  let milli := ms % 1000
  let days := s / 86400
  let secOfDay := s % 86400
  let hh := secOfDay / 3600
  let mi := secOfDay % 3600 / 60
  let ss := secOfDay % 60
  let ymd := civilFromDays days
  pad4 ymd.1 ++ "-" ++ pad2 ymd.2.1 ++ "-" ++ pad2 ymd.2.2 ++ "T" ++
    pad2 hh ++ ":" ++ pad2 mi ++ ":" ++ pad2 ss ++ "." ++ pad3 milli ++ "Z"

/-- Caller-supplied fields of `addWhitelistUser`'s argument (the remaining
`WhitelistUser` fields are overwritten by the function itself). -/
structure NewUser where
  name : String
  email : String
  userId : String
  deviceId : String
deriving Repr, DecidableEq

/-- `addWhitelistUser`: derive the document id from the userId, fail if that
document already exists, otherwise create the record.  `now` stands for
`Date.now()`. -/
def addWhitelistUser (store : Store) (user : NewUser) (addedBy : String) (now : Nat) :
    Except String String × Store × List StoreOp :=
  let docId := sanitizeDocId user.userId
  if getDocExists store docId then
    (Except.error ("User with ID \"" ++ user.userId ++ "\" already exists"), store,
      [StoreOp.getDocById docId])
  else
    let newUser : WhitelistUser :=
      { name := user.name, email := user.email, userId := user.userId,
        deviceId := user.deviceId, isActive := true, createdAt := now,
        addedAt := now, addedBy := addedBy, lastLogin := 0 }
    (Except.ok docId, setDoc store docId newUser,
      [StoreOp.getDocById docId, StoreOp.setOne docId])

/-- One raw row of a bulk-import input file: `email` and `isActive` are
optional in the TypeScript parameter type, the other fields are required
strings. -/
structure RawUser where
  name : String
  email : Option String
  userId : String
  deviceId : String
  isActive : Option Bool
deriving Repr, DecidableEq

/-- One normalized record accepted by the validation pass (the `validUsers`
entries of the source). -/
structure ValidUser where
  userId : String
  name : String
  email : String
  deviceId : String
  isActive : Bool
  rowNumber : Nat
deriving Repr, DecidableEq

/-- Result object of `bulkImportWhitelistUsers`. -/
structure ImportResult where
  success : Nat
  failed : Nat
  errors : List String
  skipped : Nat
deriving Repr, DecidableEq

/-- State threaded through the validation loop (step 1 of the import). -/
structure ValState where
  validUsers : List ValidUser
  failed : Nat
  skipped : Nat
  errors : List String
  seen : List String
deriving Repr, DecidableEq

/-- The email check `if (user.email && !user.email.includes('@'))`:
an email fails only when it is present, non-empty and lacks an `@`. -/
def emailInvalid : Option String → Bool
  | none => false
  | some e => !(jsIsEmpty e) && !(jsIncludesChar e '@')

/-- Normalization `user.email?.trim().toLowerCase() || no-email placeholder`
(the placeholder embeds the raw, untrimmed userId). -/
def normEmail (email : Option String) (rawUserId : String) : String :=
  let e := jsToLower (jsTrim (email.getD ""))
  if jsIsEmpty e then "no-email-" ++ rawUserId ++ "@placeholder.local" else e

/-- Row-tagged error string helper. -/
def rowMsg (rowNum : Nat) (msg : String) : String :=
  "Row " ++ toString rowNum ++ ": " ++ msg

/-- One iteration of the validation loop of step 1: field checks in source
order, then the in-file duplicate check against the raw (untrimmed) userIds
seen so far, then normalization. -/
def validateStep (st : ValState) (rowNum : Nat) (u : RawUser) : ValState :=
  if jsIsEmpty (jsTrim u.name) then
    { st with failed := st.failed + 1,
              errors := st.errors ++ [rowMsg rowNum "Name is required"] }
  else if emailInvalid u.email then
    { st with failed := st.failed + 1,
              errors := st.errors ++ [rowMsg rowNum "Valid email is required"] }
  else if jsIsEmpty (jsTrim u.userId) then
    { st with failed := st.failed + 1,
              errors := st.errors ++ [rowMsg rowNum "User ID is required"] }
  else if jsIsEmpty (jsTrim u.deviceId) then
    { st with failed := st.failed + 1,
              errors := st.errors ++ [rowMsg rowNum "Device ID is required"] }
  else if u.userId ∈ st.seen then
    { st with skipped := st.skipped + 1,
              errors := st.errors ++
                [rowMsg rowNum ("Duplicate userId \"" ++ u.userId ++ "\" in import file")] }
  else
    { st with seen := st.seen ++ [u.userId],
              validUsers := st.validUsers ++
                [{ userId := jsTrim u.userId, name := jsTrim u.name,
                   email := normEmail u.email u.userId, deviceId := jsTrim u.deviceId,
                   isActive := u.isActive.getD true, rowNumber := rowNum }] }

/-- The validation loop from row number `rowNum` onwards. -/
def validateFrom (st : ValState) (rowNum : Nat) : List RawUser → ValState
  | [] => st
  | u :: rest => validateFrom (validateStep st rowNum u) (rowNum + 1) rest

/-- Step 1 of the import: validate all rows, 1-based row numbers. -/
def validateUsers (users : List RawUser) : ValState :=
  validateFrom { validUsers := [], failed := 0, skipped := 0, errors := [], seen := [] } 1 users

/-- Step 2 of the import, one `where('userId','in',…)` query per group of 30
accepted records.  `qFail i = some msg` means the query for group `i` throws;
that error is swallowed (only logged), contributing no existing ids. -/
def precheckGroups (store : Store) (qFail : Nat → Option String) :
    Nat → List (List ValidUser) → List String × List StoreOp
  | _, [] => ([], [])
  | i, g :: rest =>
    let ids := g.map (fun u => u.userId)
    let tail := precheckGroups store qFail (i + 1) rest
    match qFail i with
    | none =>
      ((store.filter (fun p => p.2.userId ∈ ids)).map (fun p => p.2.userId) ++ tail.1,
        StoreOp.queryUserIdIn ids :: tail.2)
    | some _ => (tail.1, StoreOp.queryUserIdIn ids :: tail.2)

/-- Step 2 of the import: the set of already-stored userIds among the accepted
records, gathered 30 at a time. -/
def precheck (store : Store) (validUsers : List ValidUser) (qFail : Nat → Option String) :
    List String × List StoreOp :=
  precheckGroups store qFail 0 (chunksOf 30 validUsers)

/-- Step 3 of the import: drop accepted records whose userId already exists in
the store, counting each as skipped with a row-tagged error. -/
def filterExisting : List ValidUser → List String → List ValidUser × Nat × List String
  | [], _ => ([], 0, [])
  | u :: rest, existing =>
    let tail := filterExisting rest existing
    if u.userId ∈ existing then
      (tail.1, tail.2.1 + 1,
        rowMsg u.rowNumber ("User \"" ++ u.userId ++ "\" already exists in database") :: tail.2.2)
    else
      (u :: tail.1, tail.2.1, tail.2.2)

/-- The record written for one accepted row (both by a batch `set` and by the
individual fallback `setDoc`); `now` stands for `Date.now()`. -/
def mkImportRecord (addedBy : String) (now : Nat) (u : ValidUser) : WhitelistUser :=
  { name := u.name, email := u.email, userId := u.userId, deviceId := u.deviceId,
    isActive := u.isActive, createdAt := now, addedAt := now,
    addedBy := addedBy, lastLogin := 0 }

/-- Apply all `set` operations of one committed batch, in order. -/
def applyBatch (addedBy : String) (now : Nat) (store : Store) (batch : List ValidUser) : Store :=
  batch.foldl (fun st u => setDoc st (sanitizeDocId u.userId) (mkImportRecord addedBy now u)) store

/-- The per-record fallback after a failed batch commit: individual `setDoc`
calls, each failing iff `iFail rowNumber = some msg`.  Returns the new store
and the fallback's (success, failed, errors, ops). -/
def fallbackWrite (addedBy : String) (now : Nat) (iFail : Nat → Option String) :
    Store → List ValidUser → Store × Nat × Nat × List String × List StoreOp
  | store, [] => (store, 0, 0, [], [])
  | store, u :: rest =>
    match iFail u.rowNumber with
    | none =>
      let store' := setDoc store (sanitizeDocId u.userId) (mkImportRecord addedBy now u)
      let t := fallbackWrite addedBy now iFail store' rest
      (t.1, t.2.1 + 1, t.2.2.1, t.2.2.2.1, StoreOp.setOne (sanitizeDocId u.userId) :: t.2.2.2.2)
    | some msg =>
      let t := fallbackWrite addedBy now iFail store rest
      (t.1, t.2.1, t.2.2.1 + 1, rowMsg u.rowNumber msg :: t.2.2.2.1, t.2.2.2.2)

/-- Step 4 of the import over the list of 50-record batches, starting at batch
index `i`: commit each batch atomically unless `bFail i` says the commit
throws, in which case fall back to individual writes for that batch. -/
def writePass (addedBy : String) (now : Nat) (bFail iFail : Nat → Option String) :
    Store → Nat → List (List ValidUser) → Store × Nat × Nat × List String × List StoreOp
  | store, _, [] => (store, 0, 0, [], [])
  | store, i, batch :: rest =>
    let ids := batch.map (fun u => sanitizeDocId u.userId)
    match bFail i with
    | none =>
      let store' := applyBatch addedBy now store batch
      let t := writePass addedBy now bFail iFail store' (i + 1) rest
      (t.1, batch.length + t.2.1, t.2.2.1, t.2.2.2.1, StoreOp.commitSet ids :: t.2.2.2.2)
    | some _ =>
      let f := fallbackWrite addedBy now iFail store batch
      let t := writePass addedBy now bFail iFail f.1 (i + 1) rest
      (t.1, f.2.1 + t.2.1, f.2.2.1 + t.2.2.1, f.2.2.2.1 ++ t.2.2.2.1,
        StoreOp.commitSet ids :: f.2.2.2.2 ++ t.2.2.2.2)

/-- `bulkImportWhitelistUsers`: validation, 30-at-a-time existence pre-check,
filtering of already-stored userIds, then chunked writes of 50 with per-record
fallback.  All backend failures injected by the oracles are caught inside the
function, so it always returns a structured result. -/
def bulkImportWhitelistUsers (store : Store) (users : List RawUser) (addedBy : String)
    (now : Nat) (qFail bFail iFail : Nat → Option String) :
    Except String ImportResult × Store × List StoreOp :=
  let vs := validateUsers users
  let pre := precheck store vs.validUsers qFail
  let flt := filterExisting vs.validUsers pre.1
  let wp := writePass addedBy now bFail iFail store 0 (chunksOf 50 flt.1)
  (Except.ok
    { success := wp.2.1, failed := vs.failed + wp.2.2.1,
      errors := vs.errors ++ flt.2.2 ++ wp.2.2.2.1, skipped := vs.skipped + flt.2.1 },
    wp.1, pre.2 ++ wp.2.2.2.2)

/-- Result object of `deleteAllWhitelistUsers`. -/
structure DeleteAllResult where
  success : Nat
  failed : Nat
  errors : List String
deriving Repr, DecidableEq

/-- Delete-batch loop of `deleteAllWhitelistUsers` over the 500-document
chunks of the snapshot, starting at batch index `i`.  A failed commit adds the
whole chunk to the failed counter (no per-document fallback). -/
def deleteAllBatches (bFail : Nat → Option String) :
    Store → Nat → List (List String) → Store × Nat × Nat × List String × List StoreOp
  | store, _, [] => (store, 0, 0, [], [])
  | store, i, chunk :: rest =>
    match bFail i with
    | none =>
      let store' := chunk.foldl deleteDoc store
      let t := deleteAllBatches bFail store' (i + 1) rest
      (t.1, chunk.length + t.2.1, t.2.2.1, t.2.2.2.1, StoreOp.commitDelete chunk :: t.2.2.2.2)
    | some msg =>
      let t := deleteAllBatches bFail store (i + 1) rest
      (t.1, t.2.1, chunk.length + t.2.2.1,
        ("Batch " ++ toString (i + 1) ++ ": " ++ msg) :: t.2.2.2.1,
        StoreOp.commitDelete chunk :: t.2.2.2.2)

/-- `deleteAllWhitelistUsers`: super-admin gate (a thrown error), full
snapshot read (`rFail` injects a thrown backend error there, which
propagates), then batched deletes of 500 with per-batch failure isolation. -/
def deleteAllWhitelistUsers (store : Store) (isSuperAdmin : Bool)
    (rFail : Option String) (bFail : Nat → Option String) :
    Except String DeleteAllResult × Store × List StoreOp :=
  if !isSuperAdmin then
    (Except.error "Only super admin can delete all users", store, [])
  else
    match rFail with
    | some msg => (Except.error msg, store, [StoreOp.getAllDocs])
    | none =>
      let ids := store.map (fun p => p.1)
      let t := deleteAllBatches bFail store 0 (chunksOf 500 ids)
      (Except.ok { success := t.2.1, failed := t.2.2.1, errors := t.2.2.2.1 },
        t.1, StoreOp.getAllDocs :: t.2.2.2.2)

/-- Result object of `removeDuplicateUsers`. -/
structure RemoveDupResult where
  totalScanned : Nat
  duplicatesFound : Nat
  duplicatesRemoved : Nat
  errors : List String
deriving Repr, DecidableEq

/-- Append a document id to the group of its userId, creating the group at the
end on first sight (JavaScript `Map` insertion order). -/
def insertGroup : List (String × List String) → String → String → List (String × List String)
  | [], uid, docId => [(uid, [docId])]
  | (u, ds) :: rest, uid, docId =>
    if u = uid then (u, ds ++ [docId]) :: rest else (u, ds) :: insertGroup rest uid docId

/-- The `userIdMap` of `removeDuplicateUsers`: groups of document ids sharing
a userId, keyed in first-encounter order. -/
def groupByUserId (docs : Store) : List (String × List String) :=
  docs.foldl (fun m p => insertGroup m p.2.userId p.1) []

/-- The duplicate document ids: for every group with more than one member,
all but the first (`docIds.slice(1)`), in map-iteration order. -/
def duplicateDocIds (docs : Store) : List String :=
  (groupByUserId docs).foldl
    (fun acc g => acc ++ (if g.2.length > 1 then g.2.drop 1 else [])) []

/-- Delete-batch loop of `removeDuplicateUsers`: like the bulk delete, but a
failed commit only records an error (the removed counter is untouched). -/
def removeDupBatches (bFail : Nat → Option String) :
    Store → Nat → List (List String) → Store × Nat × List String × List StoreOp
  | store, _, [] => (store, 0, [], [])
  | store, i, chunk :: rest =>
    match bFail i with
    | none =>
      let store' := chunk.foldl deleteDoc store
      let t := removeDupBatches bFail store' (i + 1) rest
      (t.1, chunk.length + t.2.1, t.2.2.1, StoreOp.commitDelete chunk :: t.2.2.2)
    | some msg =>
      let t := removeDupBatches bFail store (i + 1) rest
      (t.1, t.2.1, ("Batch " ++ toString (i + 1) ++ ": " ++ msg) :: t.2.2.1,
        StoreOp.commitDelete chunk :: t.2.2.2)

/-- `removeDuplicateUsers`: super-admin gate (a thrown error), full snapshot
read, grouping by userId, then batched deletion (500 per batch) of every group
member except the first encountered. -/
def removeDuplicateUsers (store : Store) (isSuperAdmin : Bool)
    (rFail : Option String) (bFail : Nat → Option String) :
    Except String RemoveDupResult × Store × List StoreOp :=
  if !isSuperAdmin then
    (Except.error "Only super admin can remove duplicates", store, [])
  else
    match rFail with
    | some msg => (Except.error msg, store, [StoreOp.getAllDocs])
    | none =>
      let dups := duplicateDocIds store
      let t := removeDupBatches bFail store 0 (chunksOf 500 dups)
      (Except.ok
        { totalScanned := store.length, duplicatesFound := dups.length,
          duplicatesRemoved := t.2.1, errors := t.2.2.1 },
        t.1, StoreOp.getAllDocs :: t.2.2.2)

/-- The CSV header columns of `exportWhitelistAsCSV`. -/
def csvHeaders : List String :=
  ["ID", "Name", "Email", "UserID", "DeviceID", "IsActive", "CreatedAt", "AddedBy", "AddedAt"]

/-- `exportWhitelistAsCSV` on a snapshot of the collection: header line plus
one comma-joined line per document, newline separated. -/
def exportWhitelistAsCSV (store : Store) : String :=
  String.intercalate "\n"
    (String.intercalate "," csvHeaders ::
      store.map (fun p =>
        String.intercalate ","
          [p.1, p.2.name, p.2.email, p.2.userId, p.2.deviceId,
           if p.2.isActive then "true" else "false",
           toISOString p.2.createdAt, p.2.addedBy, toISOString p.2.addedAt]))

/-- One operation of a whitelist add/import sequence (as quantified over by
the uniqueness-invariant claim), carrying its own failure oracles. -/
inductive WlOp where
  | addUser (u : NewUser) (addedBy : String) (now : Nat)
  | bulkImport (users : List RawUser) (addedBy : String) (now : Nat)
      (qFail bFail iFail : Nat → Option String)

/-- The store after one operation (a thrown `addWhitelistUser` leaves the
store unchanged; the import never throws). -/
def applyOp (store : Store) : WlOp → Store
  | WlOp.addUser u addedBy now => (addWhitelistUser store u addedBy now).2.1
  | WlOp.bulkImport users addedBy now qFail bFail iFail =>
      (bulkImportWhitelistUsers store users addedBy now qFail bFail iFail).2.1

/-- The store after a sequence of add/import operations. -/
def applyOps (ops : List WlOp) (store : Store) : Store :=
  ops.foldl applyOp store

/-- Every document's id is derived from its record's userId by
`sanitizeDocId` — the id discipline both write paths of the service follow. -/
def GoodStore (store : Store) : Prop :=
  ∀ p ∈ store, p.1 = sanitizeDocId p.2.userId

instance (store : Store) : Decidable (GoodStore store) :=
  inferInstanceAs (Decidable (∀ p ∈ store, p.1 = sanitizeDocId p.2.userId))

/-- Document ids are pairwise distinct (a key-value store). -/
def WFStore (store : Store) : Prop :=
  (store.map (fun p => p.1)).Nodup

instance (store : Store) : Decidable (WFStore store) := by
  unfold WFStore; infer_instance

/-- No two records of the store share a userId. -/
def UniqueUserIds (store : Store) : Prop :=
  (storeUserIds store).Nodup

instance (store : Store) : Decidable (UniqueUserIds store) :=
  inferInstanceAs (Decidable (storeUserIds store).Nodup)

/-- Oracle under which every store call succeeds. -/
def noFail : Nat → Option String := fun _ => none

/-- A sample stored record with the given userId (arbitrary other fields). -/
def sampleRec (uid : String) : WhitelistUser :=
  { name := "n", email := "e", userId := uid, deviceId := "d", isActive := true,
    createdAt := 0, addedAt := 0, addedBy := "a", lastLogin := 0 }

/-- C6: importing `[{name:"Ann",userId:"u1",deviceId:"d1"},
{name:"Ann2",userId:"u1",deviceId:"d2"}]` into an empty store returns exactly
`success 1, failed 0, skipped 1` with the single in-file-duplicate error
string, and only the first record is written. -/
theorem c6_infile_duplicate_scenario :
    (bulkImportWhitelistUsers []
        [⟨"Ann", none, "u1", "d1", none⟩, ⟨"Ann2", none, "u1", "d2", none⟩]
        "adm" 0 noFail noFail noFail).1 =
      Except.ok { success := 1, failed := 0,
                  errors := ["Row 2: Duplicate userId \"u1\" in import file"], skipped := 1 } ∧
    (bulkImportWhitelistUsers []
        [⟨"Ann", none, "u1", "d1", none⟩, ⟨"Ann2", none, "u1", "d2", none⟩]
        "adm" 0 noFail noFail noFail).2.1 =
      [("u1", { name := "Ann", email := "no-email-u1@placeholder.local", userId := "u1",
                deviceId := "d1", isActive := true, createdAt := 0, addedAt := 0,
                addedBy := "adm", lastLogin := 0 })] := by
  exact ⟨by decide, by decide⟩

/-- C7: on a store holding three records with userId `u1` (document ids
`a`, `b`, `c` in iteration order) and one with `u2`, `removeDuplicateUsers`
with super-admin rights and no failing store calls reports 4 scanned, 2 found,
2 removed, no errors, and keeps exactly document `a` and the `u2` record. -/
theorem c7_reconciliation_scenario :
    (removeDuplicateUsers
        [("a", sampleRec "u1"), ("b", sampleRec "u1"), ("c", sampleRec "u1"),
         ("d", sampleRec "u2")] true none noFail).1 =
      Except.ok { totalScanned := 4, duplicatesFound := 2, duplicatesRemoved := 2,
                  errors := [] } ∧
    (removeDuplicateUsers
        [("a", sampleRec "u1"), ("b", sampleRec "u1"), ("c", sampleRec "u1"),
         ("d", sampleRec "u2")] true none noFail).2.1 =
      [("a", sampleRec "u1"), ("d", sampleRec "u2")] := by
  exact ⟨by decide, by decide⟩

/-- C9: the distinct userIds `"a.b"` and `"a b"` sanitize to the same document
id, so after adding a record with userId `"a.b"` to an empty store, adding one
with userId `"a b"` throws an "already exists" error even though no stored
record carries userId `"a b"`. -/
theorem c9_sanitize_collision_add :
    "a.b" ≠ "a b" ∧
    sanitizeDocId "a.b" = sanitizeDocId "a b" ∧
    (addWhitelistUser [] ⟨"Ann", "ann@x.co", "a.b", "d1"⟩ "adm" 0).1 = Except.ok "a_b" ∧
    (addWhitelistUser (addWhitelistUser [] ⟨"Ann", "ann@x.co", "a.b", "d1"⟩ "adm" 0).2.1
        ⟨"Bob", "bob@x.co", "a b", "d2"⟩ "adm" 0).1 =
      Except.error "User with ID \"a b\" already exists" ∧
    ∀ p ∈ (addWhitelistUser [] ⟨"Ann", "ann@x.co", "a.b", "d1"⟩ "adm" 0).2.1,
      p.2.userId ≠ "a b" := by
  decide

/-- C10: the in-file duplicate check compares raw userIds while normalization
trims them: importing rows with userIds `" u1"` and `"u1"` into an empty store
skips nothing and reports `success 2`, yet only one record exists afterwards,
so the success count exceeds the number of records created. -/
theorem c10_trim_mismatch_overcount :
    (bulkImportWhitelistUsers []
        [⟨"Ann", none, " u1", "d1", none⟩, ⟨"Bob", none, "u1", "d2", none⟩]
        "adm" 0 noFail noFail noFail).1 =
      Except.ok { success := 2, failed := 0, errors := [], skipped := 0 } ∧
    (bulkImportWhitelistUsers []
        [⟨"Ann", none, " u1", "d1", none⟩, ⟨"Bob", none, "u1", "d2", none⟩]
        "adm" 0 noFail noFail noFail).2.1.length = 1 := by
  exact ⟨by decide, by decide⟩

/-- C4: called without super-admin rights, both bulk destructive operations
fail with the authorization error, issue no store operation at all, and leave
the store unchanged — whatever the store contents and backend behaviour. -/
theorem c4_authorization_before_store_access :
    ∀ (store : Store) (rFail : Option String) (bFail : Nat → Option String),
      deleteAllWhitelistUsers store false rFail bFail =
        (Except.error "Only super admin can delete all users", store, ([] : List StoreOp)) ∧
      removeDuplicateUsers store false rFail bFail =
        (Except.error "Only super admin can remove duplicates", store, ([] : List StoreOp)) :=
  fun _ _ _ => ⟨rfl, rfl⟩

/-- C3 fails as stated: an authorization failure (isSuperAdmin = false) is not
returned inside the structured result object — both bulk operations throw it
as an exception, here at the concrete input of an empty store. -/
theorem c3_counterexample_auth_throws :
    (deleteAllWhitelistUsers [] false none noFail).1 =
      Except.error "Only super admin can delete all users" ∧
    (removeDuplicateUsers [] false none noFail).1 =
      Except.error "Only super admin can remove duplicates" :=
  ⟨rfl, rfl⟩

/-- C3 amended: validation failures and duplicate collisions are returned
inside the structured result and never make `bulkImportWhitelistUsers` throw
(it returns a structured result for every input and backend behaviour);
`deleteAllWhitelistUsers` and `removeDuplicateUsers` return chunk-level
business failures structurally once authorized (and the initial collection
read succeeds), but raise authorization failures as thrown exceptions. -/
theorem c3_amended_propagation_policy :
    (∀ (store : Store) (users : List RawUser) (addedBy : String) (now : Nat)
        (qFail bFail iFail : Nat → Option String), ∃ r,
        (bulkImportWhitelistUsers store users addedBy now qFail bFail iFail).1 =
          Except.ok r) ∧
    (∀ (store : Store) (bFail : Nat → Option String), ∃ r,
        (deleteAllWhitelistUsers store true none bFail).1 = Except.ok r) ∧
    (∀ (store : Store) (bFail : Nat → Option String), ∃ r,
        (removeDuplicateUsers store true none bFail).1 = Except.ok r) ∧
    (∀ (store : Store) (rFail : Option String) (bFail : Nat → Option String),
        (deleteAllWhitelistUsers store false rFail bFail).1 =
          Except.error "Only super admin can delete all users" ∧
        (removeDuplicateUsers store false rFail bFail).1 =
          Except.error "Only super admin can remove duplicates") :=
  ⟨fun _ _ _ _ _ _ _ => ⟨_, rfl⟩,
   fun _ _ => ⟨_, rfl⟩,
   fun _ _ => ⟨_, rfl⟩,
   fun _ _ _ => ⟨rfl, rfl⟩⟩

/-! ### Chunking and write-pass lemmas -/

theorem chunksGo_flatten {α : Type} (n : Nat) :
    ∀ (xs left : List α) (k : Nat), (chunksGo n xs left k).flatten = left.reverse ++ xs
  | [], left, k => by simp [chunksGo]
  | x :: xs, left, 0 => by
    simp [chunksGo, chunksGo_flatten n xs [x] (n - 1)]
  | x :: xs, left, k + 1 => by
    simp [chunksGo, chunksGo_flatten n xs (x :: left) k]

theorem chunksOf_flatten {α : Type} (n : Nat) (l : List α) : (chunksOf n l).flatten = l := by
  cases l with
  | nil => rfl
  | cons x xs => simp [chunksOf, chunksGo_flatten]

theorem applyBatch_flatten (addedBy : String) (now : Nat) :
    ∀ (cs : List (List ValidUser)) (store : Store),
      cs.foldl (applyBatch addedBy now) store = applyBatch addedBy now store cs.flatten
  | [], store => by simp [applyBatch]
  | c :: cs, store => by
    simp [applyBatch, List.foldl_append, applyBatch_flatten addedBy now cs]

theorem writePass_noFail (addedBy : String) (now : Nat) (iFail : Nat → Option String) :
    ∀ (cs : List (List ValidUser)) (store : Store) (i : Nat),
      writePass addedBy now noFail iFail store i cs =
        (applyBatch addedBy now store cs.flatten, cs.flatten.length, 0, [],
          cs.map (fun b => StoreOp.commitSet (b.map (fun u => sanitizeDocId u.userId))))
  | [], store, i => by simp [writePass, applyBatch]
  | batch :: rest, store, i => by
    simp [writePass, noFail, writePass_noFail addedBy now iFail rest _ (i + 1),
      applyBatch, List.foldl_append]

theorem precheckGroups_allFail (store : Store) (msg : String) :
    ∀ (gs : List (List ValidUser)) (i : Nat),
      (precheckGroups store (fun _ => some msg) i gs).1 = []
  | [], _ => rfl
  | g :: gs, i => by simp [precheckGroups, precheckGroups_allFail store msg gs (i + 1)]

theorem filterExisting_nil : ∀ (vus : List ValidUser), filterExisting vus [] = (vus, 0, [])
  | [] => rfl
  | u :: rest => by simp [filterExisting, filterExisting_nil rest]

/-- C5: a thrown existence pre-check query never escapes
`bulkImportWhitelistUsers` (the result is structured for every backend
behaviour), and when every pre-check query group throws, the queried userIds
are treated as not existing: nothing extra is skipped, every accepted record
proceeds to the write pass (each appears in a committed batch write, whatever
the store already contains) and is counted as a success. -/
theorem c5_precheck_failure_is_soft (store : Store) (users : List RawUser)
    (addedBy : String) (now : Nat) (msg : String) :
    (∀ qFail bFail iFail : Nat → Option String, ∃ r,
        (bulkImportWhitelistUsers store users addedBy now qFail bFail iFail).1 =
          Except.ok r) ∧
    (∃ r,
        (bulkImportWhitelistUsers store users addedBy now
            (fun _ => some msg) noFail noFail).1 = Except.ok r ∧
        r.success = (validateUsers users).validUsers.length ∧
        r.failed = (validateUsers users).failed ∧
        r.skipped = (validateUsers users).skipped) ∧
    (∀ u ∈ (validateUsers users).validUsers, ∃ ids,
        StoreOp.commitSet ids ∈
          (bulkImportWhitelistUsers store users addedBy now
            (fun _ => some msg) noFail noFail).2.2 ∧
        sanitizeDocId u.userId ∈ ids) := by
  have hpre : (precheck store (validateUsers users).validUsers (fun _ => some msg)).1 = [] :=
    precheckGroups_allFail store msg _ 0
  have hflt := filterExisting_nil (validateUsers users).validUsers
  refine ⟨fun _ _ _ => ⟨_, rfl⟩, ?_, ?_⟩
  · refine ⟨_, rfl, ?_, ?_, ?_⟩ <;>
      simp [bulkImportWhitelistUsers, hpre, hflt, writePass_noFail, chunksOf_flatten]
  · intro u hu
    have humem : u ∈ ((chunksOf 50 (validateUsers users).validUsers).flatten) := by
      rw [chunksOf_flatten]; exact hu
    obtain ⟨b, hb, hub⟩ := List.mem_flatten.mp humem
    refine ⟨b.map (fun v => sanitizeDocId v.userId), ?_, List.mem_map_of_mem _ hub⟩
    simp only [bulkImportWhitelistUsers, hpre, hflt, writePass_noFail]
    exact List.mem_append_right _ (List.mem_map_of_mem _ hb)

/-! ### CSV export: specification-side description and refinement -/

/-- One CSV data line as the specification words it: the nine fields
(document id, name, email, userId, deviceId, isActive as literal
`true`/`false`, createdAt and addedAt as ISO-8601 strings, addedBy) joined by
commas in the header's column order. -/
def csvSpecLine (docId : String) (u : WhitelistUser) : String :=
  docId ++ "," ++ u.name ++ "," ++ u.email ++ "," ++ u.userId ++ "," ++ u.deviceId ++ "," ++
    (if u.isActive then "true" else "false") ++ "," ++ toISOString u.createdAt ++ "," ++
    u.addedBy ++ "," ++ toISOString u.addedAt

/-- The newline-prefixed data lines, one per stored record. -/
def csvSpecBody : Store → String
  | [] => ""
  | p :: rest => "\n" ++ csvSpecLine p.1 p.2 ++ csvSpecBody rest

/-- The CSV output as the specification describes it: the fixed nine-column
header as the first line, followed by one comma-joined line per record. -/
def exportCSVSpec (store : Store) : String :=
  "ID,Name,Email,UserID,DeviceID,IsActive,CreatedAt,AddedBy,AddedAt" ++ csvSpecBody store

theorem intercalate_go_csvBody :
    ∀ (store : Store) (acc : String),
      String.intercalate.go acc "\n" (store.map (fun p => csvSpecLine p.1 p.2)) =
        acc ++ csvSpecBody store
  | [], acc => by simp [String.intercalate.go, csvSpecBody]
  | p :: rest, acc => by
    simp [String.intercalate.go, csvSpecBody, intercalate_go_csvBody rest,
      String.append_assoc]

/-- C8: `exportWhitelistAsCSV` produces exactly the spec's format — the fixed
header `ID,Name,Email,UserID,DeviceID,IsActive,CreatedAt,AddedBy,AddedAt` as
the first line, then one comma-joined line per stored record with `isActive`
rendered as literal `true`/`false` and the timestamps as ISO-8601 strings. -/
theorem c8_export_csv_format (store : Store) :
    exportWhitelistAsCSV store = exportCSVSpec store := by
  show String.intercalate.go (String.intercalate "," csvHeaders) "\n"
      (store.map (fun p => csvSpecLine p.1 p.2)) = exportCSVSpec store
  rw [intercalate_go_csvBody]
  rfl

/-! ### The document-id discipline and the uniqueness invariant -/

/-- The id discipline both write paths maintain: derived document ids and
pairwise-distinct keys. -/
def StoreInv (store : Store) : Prop := GoodStore store ∧ WFStore store

theorem keys_setDoc (d : String) (r : WhitelistUser) :
    ∀ store : Store,
      (setDoc store d r).map (fun p => p.1) =
        if d ∈ store.map (fun p => p.1) then store.map (fun p => p.1)
        else store.map (fun p => p.1) ++ [d]
  | [] => by simp [setDoc]
  | (d0, r0) :: rest => by
    by_cases h : d0 = d
    · subst h; simp [setDoc]
    · have hne : d ≠ d0 := fun hx => h hx.symm
      simp only [setDoc, if_neg h, List.map_cons, keys_setDoc d r rest]
      by_cases hmem : d ∈ rest.map (fun p => p.1) <;>
        simp [hmem, hne]

theorem setDoc_WFStore {store : Store} (d : String) (r : WhitelistUser)
    (h : WFStore store) : WFStore (setDoc store d r) := by
  unfold WFStore at *
  rw [keys_setDoc]
  by_cases hmem : d ∈ store.map (fun p => p.1) <;> simp [hmem, h, List.nodup_append]

theorem setDoc_GoodStore {d : String} {r : WhitelistUser}
    (hd : d = sanitizeDocId r.userId) :
    ∀ {store : Store}, GoodStore store → GoodStore (setDoc store d r)
  | [], _ => by simp [GoodStore, setDoc, hd]
  | (d0, r0) :: rest, h => by
    have h0 : (d0, r0).1 = sanitizeDocId (d0, r0).2.userId := h _ (List.mem_cons_self _ _)
    have hrest : GoodStore rest := fun p hp => h p (List.mem_cons_of_mem _ hp)
    by_cases hcase : d0 = d
    · subst hcase
      intro p hp
      rcases List.mem_cons.mp (by simpa [setDoc] using hp) with h1 | h2
      · subst h1; exact hd
      · exact hrest _ h2
    · intro p hp
      rcases List.mem_cons.mp (by simpa [setDoc, hcase] using hp) with h1 | h2
      · subst h1; exact h0
      · exact setDoc_GoodStore hd hrest _ h2

theorem setDoc_inv (store : Store) (d : String) (r : WhitelistUser)
    (hd : d = sanitizeDocId r.userId) (h : StoreInv store) : StoreInv (setDoc store d r) :=
  ⟨setDoc_GoodStore hd h.1, setDoc_WFStore d r h.2⟩

theorem applyBatch_inv (addedBy : String) (now : Nat) :
    ∀ (batch : List ValidUser) (store : Store),
      StoreInv store → StoreInv (applyBatch addedBy now store batch)
  | [], _, h => h
  | u :: rest, store, h =>
    applyBatch_inv addedBy now rest _
      (setDoc_inv store (sanitizeDocId u.userId) (mkImportRecord addedBy now u) rfl h)

theorem fallbackWrite_inv (addedBy : String) (now : Nat) (iFail : Nat → Option String) :
    ∀ (batch : List ValidUser) (store : Store),
      StoreInv store → StoreInv (fallbackWrite addedBy now iFail store batch).1
  | [], _, h => h
  | u :: rest, store, h => by
    cases hif : iFail u.rowNumber with
    | none =>
      simpa [fallbackWrite, hif] using
        fallbackWrite_inv addedBy now iFail rest _
          (setDoc_inv store (sanitizeDocId u.userId) (mkImportRecord addedBy now u) rfl h)
    | some msg =>
      simpa [fallbackWrite, hif] using fallbackWrite_inv addedBy now iFail rest store h

theorem writePass_inv (addedBy : String) (now : Nat) (bFail iFail : Nat → Option String) :
    ∀ (cs : List (List ValidUser)) (store : Store) (i : Nat),
      StoreInv store → StoreInv (writePass addedBy now bFail iFail store i cs).1
  | [], _, _, h => h
  | batch :: rest, store, i, h => by
    cases hb : bFail i with
    | none =>
      simpa [writePass, hb] using
        writePass_inv addedBy now bFail iFail rest _ (i + 1)
          (applyBatch_inv addedBy now batch store h)
    | some msg =>
      simpa [writePass, hb] using
        writePass_inv addedBy now bFail iFail rest _ (i + 1)
          (fallbackWrite_inv addedBy now iFail batch store h)

theorem bulkImport_inv (store : Store) (users : List RawUser) (addedBy : String)
    (now : Nat) (qFail bFail iFail : Nat → Option String) (h : StoreInv store) :
    StoreInv (bulkImportWhitelistUsers store users addedBy now qFail bFail iFail).2.1 :=
  writePass_inv addedBy now bFail iFail _ store 0 h

theorem addWhitelistUser_inv (store : Store) (user : NewUser) (addedBy : String)
    (now : Nat) (h : StoreInv store) :
    StoreInv (addWhitelistUser store user addedBy now).2.1 := by
  by_cases hx : getDocExists store (sanitizeDocId user.userId)
  · simpa [addWhitelistUser, hx] using h
  · exact
      have h2 := setDoc_inv store (sanitizeDocId user.userId)
        { name := user.name, email := user.email, userId := user.userId,
          deviceId := user.deviceId, isActive := true, createdAt := now,
          addedAt := now, addedBy := addedBy, lastLogin := 0 } rfl h
      by simpa [addWhitelistUser, hx] using h2

theorem applyOps_inv : ∀ (ops : List WlOp) (store : Store),
    StoreInv store → StoreInv (applyOps ops store)
  | [], _, h => h
  | op :: rest, store, h => by
    have hstep : StoreInv (applyOp store op) := by
      cases op with
      | addUser u addedBy now => exact addWhitelistUser_inv store u addedBy now h
      | bulkImport users addedBy now qFail bFail iFail =>
        exact bulkImport_inv store users addedBy now qFail bFail iFail h
    exact applyOps_inv rest _ hstep

theorem inv_unique {store : Store} (h : StoreInv store) : UniqueUserIds store := by
  obtain ⟨hg, hw⟩ := h
  unfold WFStore at hw
  have hkeys : store.map (fun p => p.1) = (storeUserIds store).map sanitizeDocId := by
    unfold storeUserIds
    rw [List.map_map]
    exact List.map_congr_left (fun p hp => hg p hp)
  rw [hkeys] at hw
  exact hw.of_map _

/-- C1 amended: starting from any store in which every record's document id is
`sanitizeDocId` of its userId and document ids are pairwise distinct (which
together imply that no two records share a userId), every sequence of
`addWhitelistUser` and `bulkImportWhitelistUsers` operations — with arbitrary
backend failures — leaves a store in which no two records share a userId. -/
theorem c1_amended_uniqueness (ops : List WlOp) (store : Store)
    (hGood : GoodStore store) (hWF : WFStore store) :
    UniqueUserIds (applyOps ops store) :=
  inv_unique (applyOps_inv ops store ⟨hGood, hWF⟩)

/-- C1 fails as stated: the store `[("x", record with userId "u1")]` has no
two records sharing a userId, yet a single `addWhitelistUser` with userId
`"u1"` (whose existence check looks only at document id `"u1"`, not at the
legacy document `"x"`) produces a store with two records carrying userId
`"u1"`. -/
theorem c1_counterexample_legacy_docid :
    UniqueUserIds [("x", sampleRec "u1")] ∧
    ¬ UniqueUserIds (applyOps
        [WlOp.addUser ⟨"Ann", "ann@x.co", "u1", "d1"⟩ "adm" 0]
        [("x", sampleRec "u1")]) := by
  exact ⟨by decide, by decide⟩

/-- Witness: the amended uniqueness theorem applied to a concrete
well-disciplined store and a concrete add operation. -/
theorem c1_amended_uniqueness_witness :
    UniqueUserIds (applyOps
        [WlOp.addUser ⟨"Bob", "bob@x.co", "u2", "d2"⟩ "adm" 0]
        [("u1", sampleRec "u1")]) :=
  c1_amended_uniqueness
    [WlOp.addUser ⟨"Bob", "bob@x.co", "u2", "d2"⟩ "adm" 0]
    [("u1", sampleRec "u1")] (by decide) (by decide)

/-! ### Second-run idempotence machinery -/

/-- A row passes the four field checks of the validation pass (independent of
its position and of the other rows): non-blank name, well-formed email when
present, non-blank userId and deviceId. -/
def passesFieldChecks (u : RawUser) : Bool :=
  !(jsIsEmpty (jsTrim u.name)) && !(emailInvalid u.email) &&
    !(jsIsEmpty (jsTrim u.userId)) && !(jsIsEmpty (jsTrim u.deviceId))

theorem validateFrom_count : ∀ (users : List RawUser) (st : ValState) (n : Nat),
    (validateFrom st n users).validUsers.length + (validateFrom st n users).skipped =
      st.validUsers.length + st.skipped + users.countP (fun u => passesFieldChecks u)
  | [], st, n => by simp [validateFrom]
  | u :: rest, st, n => by
    have IH := fun st' => validateFrom_count rest st' (n + 1)
    simp only [validateFrom, List.countP_cons]
    by_cases h1 : jsIsEmpty (jsTrim u.name)
    · simp [validateStep, h1, IH, passesFieldChecks]
    · by_cases h2 : emailInvalid u.email
      · simp [validateStep, h1, h2, IH, passesFieldChecks]
      · by_cases h3 : jsIsEmpty (jsTrim u.userId)
        · simp [validateStep, h1, h2, h3, IH, passesFieldChecks]
        · by_cases h4 : jsIsEmpty (jsTrim u.deviceId)
          · simp [validateStep, h1, h2, h3, h4, IH, passesFieldChecks]
          · by_cases h5 : u.userId ∈ st.seen
            · simp [validateStep, h1, h2, h3, h4, h5, IH, passesFieldChecks]
              omega
            · simp [validateStep, h1, h2, h3, h4, h5, IH, passesFieldChecks]
              omega

theorem precheckGroups_noFail_mem (store : Store) :
    ∀ (gs : List (List ValidUser)) (i : Nat) (x : String),
      x ∈ (precheckGroups store noFail i gs).1 ↔
        (x ∈ storeUserIds store ∧ ∃ g ∈ gs, ∃ u ∈ g, u.userId = x)
  | [], i, x => by simp [precheckGroups]
  | g :: gs, i, x => by
    simp only [precheckGroups, noFail, List.mem_append, List.mem_map, List.mem_filter,
      precheckGroups_noFail_mem store gs (i + 1) x, storeUserIds, List.mem_cons]
    constructor
    · rintro (⟨p, ⟨hp, hid⟩, rfl⟩ | ⟨hx, g', hg', u, hu, hux⟩)
      · rcases List.mem_map.mp (by simpa using hid) with ⟨u, hu, hux⟩
        exact ⟨⟨p, hp, rfl⟩, g, Or.inl rfl, u, hu, hux⟩
      · exact ⟨hx, g', Or.inr hg', u, hu, hux⟩
    · rintro ⟨⟨p, hp, hpx⟩, g', hg' | hg', u, hu, hux⟩
      · subst hg'
        refine Or.inl ⟨p, ⟨hp, ?_⟩, hpx⟩
        simp only [decide_eq_true_eq]
        exact ⟨u, hu, by rw [hux, hpx]⟩
      · exact Or.inr ⟨⟨p, hp, hpx⟩, g', hg', u, hu, hux⟩

theorem filterExisting_sub :
    ∀ (vus : List ValidUser) (ex : List String) (u : ValidUser),
      u ∈ (filterExisting vus ex).1 → u ∈ vus
  | [], _, _, h => by simp [filterExisting] at h
  | v :: rest, ex, u, h => by
    by_cases hv : v.userId ∈ ex
    · simp only [filterExisting, if_pos hv] at h
      exact List.mem_cons_of_mem _ (filterExisting_sub rest ex u h)
    · simp only [filterExisting, if_neg hv, List.mem_cons] at h
      rcases h with h | h
      · exact h ▸ List.mem_cons_self _ _
      · exact List.mem_cons_of_mem _ (filterExisting_sub rest ex u h)

theorem filterExisting_mem_or :
    ∀ (vus : List ValidUser) (ex : List String) (u : ValidUser),
      u ∈ vus → u ∈ (filterExisting vus ex).1 ∨ u.userId ∈ ex
  | [], _, _, h => by simp at h
  | v :: rest, ex, u, h => by
    rcases List.mem_cons.mp h with h | h
    · subst h
      by_cases hv : u.userId ∈ ex
      · exact Or.inr hv
      · exact Or.inl (by simp [filterExisting, if_neg hv])
    · rcases filterExisting_mem_or rest ex u h with h2 | h2
      · by_cases hv : v.userId ∈ ex
        · exact Or.inl (by simp only [filterExisting, if_pos hv]; exact h2)
        · exact Or.inl (by simp only [filterExisting, if_neg hv]; exact List.mem_cons_of_mem _ h2)
      · exact Or.inr h2

theorem filterExisting_all :
    ∀ (vus : List ValidUser) (ex : List String),
      (∀ u ∈ vus, u.userId ∈ ex) →
      (filterExisting vus ex).1 = [] ∧ (filterExisting vus ex).2.1 = vus.length
  | [], _, _ => ⟨rfl, rfl⟩
  | v :: rest, ex, h => by
    have hv : v.userId ∈ ex := h v (List.mem_cons_self _ _)
    have IH := filterExisting_all rest ex (fun u hu => h u (List.mem_cons_of_mem _ hu))
    simp [filterExisting, if_pos hv, IH.1, IH.2]

theorem storeUserIds_setDoc_sub (d : String) (r : WhitelistUser) :
    ∀ (store : Store) (v : String),
      v ∈ storeUserIds (setDoc store d r) → v = r.userId ∨ v ∈ storeUserIds store
  | [], v, h => by simpa [setDoc, storeUserIds] using h
  | (d0, r0) :: rest, v, h => by
    by_cases hc : d0 = d
    · subst hc
      rcases (by simpa [setDoc, storeUserIds] using h :
          v = r.userId ∨ v ∈ storeUserIds rest) with h2 | h2
      · exact Or.inl h2
      · exact Or.inr (by simp [storeUserIds]; right; simpa [storeUserIds] using h2)
    · rcases (by simpa [setDoc, hc, storeUserIds] using h :
          v = r0.userId ∨ v ∈ storeUserIds (setDoc rest d r)) with h2 | h2
      · exact Or.inr (by simp [storeUserIds, h2])
      · rcases storeUserIds_setDoc_sub d r rest v h2 with h3 | h3
        · exact Or.inl h3
        · exact Or.inr (by simp [storeUserIds]; right; simpa [storeUserIds] using h3)

theorem setDoc_uid_mem (S : List String)
    (hinj : ∀ u ∈ S, ∀ v ∈ S, sanitizeDocId u = sanitizeDocId v → u = v) :
    ∀ (store : Store) (r : WhitelistUser),
      GoodStore store → (∀ v ∈ storeUserIds store, v ∈ S) → r.userId ∈ S →
      (∀ v ∈ storeUserIds store,
          v ∈ storeUserIds (setDoc store (sanitizeDocId r.userId) r)) ∧
      r.userId ∈ storeUserIds (setDoc store (sanitizeDocId r.userId) r)
  | [], r, _, _, _ => by simp [setDoc, storeUserIds]
  | (d0, r0) :: rest, r, hGood, hSub, hr => by
    have h0 : d0 = sanitizeDocId r0.userId := hGood _ (List.mem_cons_self _ _)
    have hGrest : GoodStore rest := fun p hp => hGood p (List.mem_cons_of_mem _ hp)
    have hSrest : ∀ v ∈ storeUserIds rest, v ∈ S := fun v hv =>
      hSub v (by simp [storeUserIds]; right; simpa [storeUserIds] using hv)
    have hr0S : r0.userId ∈ S := hSub _ (by simp [storeUserIds])
    by_cases hc : d0 = sanitizeDocId r.userId
    · have hval : r0.userId = r.userId := hinj _ hr0S _ hr (by rw [← h0, hc])
      constructor
      · intro v hv
        rcases (by simpa [storeUserIds] using hv :
            v = r0.userId ∨ v ∈ storeUserIds rest) with h2 | h2
        · simp [setDoc, hc, storeUserIds, h2, hval]
        · simp [setDoc, hc, storeUserIds]; right; simpa [storeUserIds] using h2
      · simp [setDoc, hc, storeUserIds]
    · have IH := setDoc_uid_mem S hinj rest r hGrest hSrest hr
      constructor
      · intro v hv
        rcases (by simpa [storeUserIds] using hv :
            v = r0.userId ∨ v ∈ storeUserIds rest) with h2 | h2
        · simp [setDoc, hc, storeUserIds, h2]
        · have := IH.1 v (by simpa [storeUserIds] using h2)
          simp [setDoc, hc, storeUserIds]; right
          simpa [storeUserIds] using this
      · have := IH.2
        simp [setDoc, hc, storeUserIds]; right
        simpa [storeUserIds] using this

theorem applyBatch_uid (S : List String)
    (hinj : ∀ u ∈ S, ∀ v ∈ S, sanitizeDocId u = sanitizeDocId v → u = v)
    (addedBy : String) (now : Nat) :
    ∀ (ws : List ValidUser) (store : Store),
      GoodStore store → (∀ v ∈ storeUserIds store, v ∈ S) → (∀ w ∈ ws, w.userId ∈ S) →
      (∀ v ∈ storeUserIds store, v ∈ storeUserIds (applyBatch addedBy now store ws)) ∧
      (∀ w ∈ ws, w.userId ∈ storeUserIds (applyBatch addedBy now store ws))
  | [], store, _, _, _ => ⟨fun _ hv => hv, by simp⟩
  | w :: rest, store, hGood, hSub, hws => by
    have hwS : w.userId ∈ S := hws w (List.mem_cons_self _ _)
    have hrestS : ∀ v ∈ rest, v.userId ∈ S := fun v hv => hws v (List.mem_cons_of_mem _ hv)
    have hstep := setDoc_uid_mem S hinj store (mkImportRecord addedBy now w) hGood hSub hwS
    have hGood1 : GoodStore (setDoc store (sanitizeDocId w.userId) (mkImportRecord addedBy now w)) :=
      @setDoc_GoodStore (sanitizeDocId w.userId) (mkImportRecord addedBy now w) rfl store hGood
    have hSub1 : ∀ v ∈ storeUserIds
        (setDoc store (sanitizeDocId w.userId) (mkImportRecord addedBy now w)), v ∈ S := by
      intro v hv
      rcases storeUserIds_setDoc_sub (sanitizeDocId w.userId)
          (mkImportRecord addedBy now w) store v hv with h | h
      · rw [h]; exact hwS
      · exact hSub v h
    have IH := applyBatch_uid S hinj addedBy now rest
      (setDoc store (sanitizeDocId w.userId) (mkImportRecord addedBy now w)) hGood1 hSub1 hrestS
    refine ⟨fun v hv => IH.1 v (hstep.1 v hv), ?_⟩
    intro v hv
    rcases List.mem_cons.mp hv with h | h
    · exact h ▸ IH.1 _ hstep.2
    · exact IH.2 v h

theorem import_run1_uids (store : Store) (L : List RawUser) (addedBy : String) (now : Nat)
    (hGood : GoodStore store)
    (hinj : ∀ u ∈ (validateUsers L).validUsers.map (fun v => v.userId) ++ storeUserIds store,
            ∀ v ∈ (validateUsers L).validUsers.map (fun v => v.userId) ++ storeUserIds store,
            sanitizeDocId u = sanitizeDocId v → u = v) :
    ∀ u ∈ (validateUsers L).validUsers,
      u.userId ∈ storeUserIds
        (bulkImportWhitelistUsers store L addedBy now noFail noFail noFail).2.1 := by
  intro u hu
  have hw : (bulkImportWhitelistUsers store L addedBy now noFail noFail noFail).2.1 =
      applyBatch addedBy now store
        (filterExisting (validateUsers L).validUsers
          (precheck store (validateUsers L).validUsers noFail).1).1 := by
    show (writePass addedBy now noFail noFail store 0
        (chunksOf 50 (filterExisting (validateUsers L).validUsers
          (precheck store (validateUsers L).validUsers noFail).1).1)).1 = _
    rw [writePass_noFail, chunksOf_flatten]
  have hbatch := applyBatch_uid _ hinj addedBy now
    (filterExisting (validateUsers L).validUsers
      (precheck store (validateUsers L).validUsers noFail).1).1 store hGood
    (fun v hv => List.mem_append_right _ hv)
    (fun v hv => List.mem_append_left _
      (List.mem_map_of_mem _ (filterExisting_sub _ _ v hv)))
  rcases filterExisting_mem_or (validateUsers L).validUsers
      (precheck store (validateUsers L).validUsers noFail).1 u hu with hin | hex
  · rw [hw]; exact hbatch.2 u hin
  · have hmem := (precheckGroups_noFail_mem store
        (chunksOf 30 (validateUsers L).validUsers) 0 u.userId).mp hex
    rw [hw]; exact hbatch.1 _ hmem.1

/-- C2 amended: when the starting store follows the document-id discipline
(every key is `sanitizeDocId` of its record's userId) and `sanitizeDocId` is
injective on the userIds involved (the accepted userIds of the input together
with the store's), running the same import twice with no failing store
operations yields, on the second run, `success = 0` and `skipped` equal to
the number of input rows that pass field validation — the accepted rows plus
the in-file duplicates, which are skipped again, not only the accepted
ones. -/
theorem c2_amended_second_run (store : Store) (L : List RawUser) (addedBy : String)
    (now1 now2 : Nat) (hGood : GoodStore store)
    (hinj : ∀ u ∈ (validateUsers L).validUsers.map (fun v => v.userId) ++ storeUserIds store,
            ∀ v ∈ (validateUsers L).validUsers.map (fun v => v.userId) ++ storeUserIds store,
            sanitizeDocId u = sanitizeDocId v → u = v) :
    ∃ r,
      (bulkImportWhitelistUsers
          (bulkImportWhitelistUsers store L addedBy now1 noFail noFail noFail).2.1
          L addedBy now2 noFail noFail noFail).1 = Except.ok r ∧
      r.success = 0 ∧
      r.skipped = L.countP (fun u => passesFieldChecks u) := by
  have hall := import_run1_uids store L addedBy now1 hGood hinj
  have hpre2 : ∀ u ∈ (validateUsers L).validUsers,
      u.userId ∈ (precheck
        (bulkImportWhitelistUsers store L addedBy now1 noFail noFail noFail).2.1
        (validateUsers L).validUsers noFail).1 := by
    intro u hu
    apply (precheckGroups_noFail_mem _ (chunksOf 30 (validateUsers L).validUsers) 0 u.userId).mpr
    refine ⟨hall u hu, ?_⟩
    have hmem : u ∈ (chunksOf 30 (validateUsers L).validUsers).flatten := by
      rw [chunksOf_flatten]; exact hu
    rcases List.mem_flatten.mp hmem with ⟨g, hg, hug⟩
    exact ⟨g, hg, u, hug, rfl⟩
  have hflt := filterExisting_all (validateUsers L).validUsers _ hpre2
  have hcount : (validateUsers L).validUsers.length + (validateUsers L).skipped =
      L.countP (fun u => passesFieldChecks u) := by
    have hc := validateFrom_count L
      { validUsers := [], failed := 0, skipped := 0, errors := [], seen := [] } 1
    simpa [validateUsers] using hc
  refine ⟨_, rfl, ?_, ?_⟩
  · show (writePass addedBy now2 noFail noFail
        (bulkImportWhitelistUsers store L addedBy now1 noFail noFail noFail).2.1 0
        (chunksOf 50 (filterExisting (validateUsers L).validUsers
          (precheck (bulkImportWhitelistUsers store L addedBy now1 noFail noFail noFail).2.1
            (validateUsers L).validUsers noFail).1).1)).2.1 = 0
    rw [hflt.1]
    rfl
  · show (validateUsers L).skipped +
        (filterExisting (validateUsers L).validUsers
          (precheck (bulkImportWhitelistUsers store L addedBy now1 noFail noFail noFail).2.1
            (validateUsers L).validUsers noFail).1).2.1 =
        L.countP (fun u => passesFieldChecks u)
    rw [hflt.2]
    omega

/-- C2 fails as stated: for the input with an in-file duplicate userId, the
second identical import returns `skipped = 2` although only one record of the
file is accepted by validation (the duplicate row is a skip, not an accepted
record, and it is skipped again on every re-run). -/
theorem c2_counterexample_infile_dup :
    (validateUsers
        [⟨"Ann", none, "u1", "d1", none⟩, ⟨"Bob", none, "u1", "d2", none⟩]).validUsers.length
      = 1 ∧
    (bulkImportWhitelistUsers
        (bulkImportWhitelistUsers []
          [⟨"Ann", none, "u1", "d1", none⟩, ⟨"Bob", none, "u1", "d2", none⟩]
          "adm" 0 noFail noFail noFail).2.1
        [⟨"Ann", none, "u1", "d1", none⟩, ⟨"Bob", none, "u1", "d2", none⟩]
        "adm" 0 noFail noFail noFail).1 =
      Except.ok { success := 0, failed := 0,
                  errors := ["Row 2: Duplicate userId \"u1\" in import file",
                             "Row 1: User \"u1\" already exists in database"],
                  skipped := 2 } := by
  exact ⟨by decide, by decide⟩

/-- Witness: the amended second-run theorem applied to the empty store and a
concrete one-row input. -/
theorem c2_amended_second_run_witness :
    ∃ r,
      (bulkImportWhitelistUsers
          (bulkImportWhitelistUsers [] [⟨"Ann", none, "u1", "d1", none⟩]
            "adm" 0 noFail noFail noFail).2.1
          [⟨"Ann", none, "u1", "d1", none⟩] "adm" 1 noFail noFail noFail).1 = Except.ok r ∧
      r.success = 0 ∧
      r.skipped = List.countP (fun u => passesFieldChecks u)
        [⟨"Ann", none, "u1", "d1", none⟩] :=
  c2_amended_second_run [] [⟨"Ann", none, "u1", "d1", none⟩] "adm" 0 1
    (by decide) (by decide)

end WebStc
